import Mathlib

/-!
Verification of the order write path of go-bootiful-ordering.

This file shallowly embeds the order domain model, the GORM-backed order
and outbox repositories, the DB-backed order write service and the gRPC
handler of the repository, and proves the spec's claims about them.

Conventions of the embedding:
* Go `string` is `String`, Go integer types are `Int` (no claim touches
  integer overflow), `time.Time` is an abstract `Nat` timestamp.
* Server-side non-determinism (UUID generation, `time.Now()`) is passed in
  explicitly through a `Gen` record of oracle values.
* Fallible storage and encoding calls are driven by a `Faults` record of
  booleans: a `true` flag makes the corresponding call fail, exactly at the
  call sites where the Go code checks an error.
* A GORM transaction is a pending copy of the database state; `Commit`
  installs it, `Rollback` (and a failing `Commit`) discards it.  The final
  resolution of the transaction handle is reported so that "returned with
  the transaction still open" is representable.
* `json.Marshal` / `json.Unmarshal` are modelled structurally on a JSON
  value tree, field for field after the Go struct tags.
-/

namespace Bootiful

/-- Go `type OrderStatus int` (domain/order.go): statuses are integers. -/
abbrev OrderStatus := Int

def OrderStatusUnspecified : OrderStatus := 0

def OrderStatusPending : OrderStatus := 1

def OrderStatusProcessing : OrderStatus := 2

def OrderStatusShipped : OrderStatus := 3

def OrderStatusDelivered : OrderStatus := 4

def OrderStatusCancelled : OrderStatus := 5

/-- domain.OrderItem: product id, quantity (int32), price (int64). -/
structure OrderItem where
  productID : String
  quantity : Int
  price : Int
deriving DecidableEq

/-- domain.Order: the order aggregate. -/
structure Order where
  id : String
  customerID : String
  items : List OrderItem
  status : OrderStatus
  totalAmount : Int
  createdAt : Nat
  updatedAt : Nat
deriving DecidableEq

/-- A JSON value tree, the target of `json.Marshal` in the embedding. -/
inductive JValue where
  | jstr : String → JValue
  | jint : Int → JValue
  | jarr : List JValue → JValue
  | jobj : List (String × JValue) → JValue

/-- JSON encoding of an OrderItem after its Go struct tags. -/
def marshalItem (it : OrderItem) : JValue :=
  .jobj [("product_id", .jstr it.productID),
         ("quantity", .jint it.quantity),
         ("price", .jint it.price)]

/-- JSON decoding of an OrderItem. -/
def unmarshalItem : JValue → Option OrderItem
  | .jobj [("product_id", .jstr p), ("quantity", .jint q), ("price", .jint pr)] =>
      some ⟨p, q, pr⟩
  | _ => none

/-- JSON decoding of a list of OrderItems. -/
def unmarshalItems : List JValue → Option (List OrderItem)
  | [] => some []
  | j :: js =>
      match unmarshalItem j, unmarshalItems js with
      | some it, some its => some (it :: its)
      | _, _ => none

/-- JSON encoding of an Order after its Go struct tags. -/
def marshalOrder (o : Order) : JValue :=
  .jobj [("id", .jstr o.id),
         ("customer_id", .jstr o.customerID),
         ("items", .jarr (o.items.map marshalItem)),
         ("status", .jint o.status),
         ("total_amount", .jint o.totalAmount),
         ("created_at", .jint o.createdAt),
         ("updated_at", .jint o.updatedAt)]

/-- JSON decoding of an Order. -/
def unmarshalOrder : JValue → Option Order
  | .jobj [("id", .jstr i), ("customer_id", .jstr c), ("items", .jarr js),
           ("status", .jint s), ("total_amount", .jint t),
           ("created_at", .jint ca), ("updated_at", .jint ua)] =>
      match unmarshalItems js with
      | some items => some ⟨i, c, items, s, t, ca.toNat, ua.toNat⟩
      | none => none
  | _ => none

theorem unmarshalItem_marshalItem (it : OrderItem) :
    unmarshalItem (marshalItem it) = some it := rfl

theorem unmarshalItems_map_marshalItem (l : List OrderItem) :
    unmarshalItems (l.map marshalItem) = some l := by
  induction l with
  | nil => rfl
  | cons it l ih => simp [unmarshalItems, unmarshalItem_marshalItem, ih]

/-- Round trip: decoding an encoded Order returns it unchanged. -/
theorem unmarshalOrder_marshalOrder (o : Order) :
    unmarshalOrder (marshalOrder o) = some o := by
  simp [marshalOrder, unmarshalOrder, unmarshalItems_map_marshalItem]

/-- repository.OrderItemModel (models.go), restricted to the columns the Go
code itself assigns. -/
structure OrderItemModel where
  orderID : String
  productID : String
  quantity : Int
  price : Int
deriving DecidableEq

/-- repository.OrderModel (models.go). `Status` is an `int` column. -/
structure OrderModel where
  id : String
  customerID : String
  status : Int
  totalAmount : Int
  createdAt : Nat
  updatedAt : Nat
  items : List OrderItemModel
deriving DecidableEq

/-- models.go ToOrderDomain: converts an OrderModel to a domain Order. -/
def OrderModel.toOrderDomain (m : OrderModel) : Order :=
  { id := m.id
    customerID := m.customerID
    items := m.items.map (fun it => ⟨it.productID, it.quantity, it.price⟩)
    status := m.status
    totalAmount := m.totalAmount
    createdAt := m.createdAt
    updatedAt := m.updatedAt }

/-- models.go FromOrderDomain: converts a domain Order to an OrderModel. -/
def FromOrderDomain (o : Order) : OrderModel :=
  { id := o.id
    customerID := o.customerID
    status := o.status
    totalAmount := o.totalAmount
    items := o.items.map (fun it => ⟨o.id, it.productID, it.quantity, it.price⟩)
    createdAt := o.createdAt
    updatedAt := o.updatedAt }

/-- Round trip: the model/domain conversion loses nothing. -/
theorem toOrderDomain_FromOrderDomain (o : Order) :
    (FromOrderDomain o).toOrderDomain = o := by
  cases o with
  | mk id cid items st total ca ua =>
      simp [FromOrderDomain, OrderModel.toOrderDomain, List.map_map]
      exact List.map_id'' (fun _ => rfl) items

/-- repository.OutboxModel (outbox_models.go): one row of `order_outbox`. -/
structure OutboxModel where
  id : String
  aggregateType : String
  aggregateID : String
  eventType : String
  payload : JValue
  createdAt : Nat

/-- The database: the `orders` table (with its items) and the append-only
`order_outbox` table. -/
structure DBState where
  orders : List OrderModel
  outbox : List OutboxModel

/-- Fault oracle: a `true` flag makes the corresponding storage or encoding
call return an error, at exactly the call sites the Go code checks. -/
structure Faults where
  beginErr : Bool
  writeErr : Bool
  countErr : Bool
  readErr : Bool
  marshalErr : Bool
  saveErr : Bool
  commitErr : Bool
deriving DecidableEq

/-- The fault-free execution: every storage and encoding call succeeds. -/
def noFaults : Faults := ⟨false, false, false, false, false, false, false⟩

/-- Oracle for server-generated values: `uuid.New()` for the order and the
outbox entry, `time.Now()` at the domain write and at entry construction. -/
structure Gen where
  orderId : String
  entryId : String
  now : Nat
  entryNow : Nat

/-- Errors of the write path, after the spec's taxonomy (§7). -/
inductive SvcError where
  | validationError : SvcError
  | notFoundError : SvcError
  | txError : SvcError
  | storageError : SvcError
  | serializationError : SvcError
deriving DecidableEq

/-- Final resolution of a transaction handle when a service call returns.
`active` means the call returned while the transaction was still open. -/
inductive TxStatus where
  | active : TxStatus
  | committed : TxStatus
  | rolledBack : TxStatus
  | aborted : TxStatus
deriving DecidableEq

/-- Result of one service call: the value or error returned to the caller,
the durable database state after the call, and the final resolution of the
transaction handle (`none` when `BeginTransaction` itself failed). -/
structure SvcResult where
  res : Except SvcError Order
  db : DBState
  tx : Option TxStatus

/-- gorm_repository.go prepareOrder: generate an id if absent, stamp both
timestamps, compute the total if it is zero, default the status. -/
def prepareOrder (genId : String) (now : Nat) (order : Order) : Order :=
  let o1 := if order.id = "" then { order with id := genId } else order
  let o2 := { o1 with createdAt := now, updatedAt := now }
  let o3 :=
    if o2.totalAmount = 0 then
      { o2 with totalAmount :=
          o2.items.foldl (fun acc it => acc + it.price * it.quantity) o2.totalAmount }
    else o2
  if o3.status = OrderStatusUnspecified then { o3 with status := OrderStatusPending }
  else o3

/-- Sum of price × quantity over the items. -/
def itemsTotal (items : List OrderItem) : Int :=
  items.foldl (fun acc it => acc + it.price * it.quantity) 0

/-- gorm_repository.go CreateOrderWithTx: prepare the order, insert its row
into the transaction's view, return the created order. -/
def CreateOrderWithTx (f : Faults) (genId : String) (now : Nat)
    (tx : DBState) (order : Order) : Except SvcError (DBState × Order) :=
  let o := prepareOrder genId now order
  let orderModel := FromOrderDomain o
  if f.writeErr then .error .storageError
  else .ok ({ tx with orders := tx.orders ++ [orderModel] }, orderModel.toOrderDomain)

/-- The row transformation of the `Updates` statement in
UpdateOrderStatusWithTx: set `status` and `updated_at` on rows whose id
matches, leave every other column and row unchanged. -/
def updRow (orderID : String) (status : OrderStatus) (now : Nat)
    (m : OrderModel) : OrderModel :=
  if m.id = orderID then { m with status := status, updatedAt := now } else m

/-- gorm_repository.go UpdateOrderStatusWithTx: run the update statement,
then probe the row count for existence (not the update's affected rows),
then read the row back. -/
def UpdateOrderStatusWithTx (f : Faults) (now : Nat) (tx : DBState)
    (orderID : String) (status : OrderStatus) : Except SvcError (DBState × Order) :=
  if f.writeErr then .error .storageError
  else
    let tx1 : DBState := { tx with orders := tx.orders.map (updRow orderID status now) }
    if f.countErr then .error .storageError
    else
      let count := tx1.orders.countP (fun m => decide (m.id = orderID))
      if count = 0 then .error .notFoundError
      else if f.readErr then .error .storageError
      else
        match tx1.orders.find? (fun m => decide (m.id = orderID)) with
        | some m => .ok (tx1, m.toOrderDomain)
        | none => .error .storageError

/-- outbox_models.go NewOrderCreatedOutboxEntry: marshal the full order
snapshot, stamp a fresh id and timestamp, tag `order_created`. -/
def NewOrderCreatedOutboxEntry (f : Faults) (entryId : String) (entryNow : Nat)
    (order : Order) : Except SvcError OutboxModel :=
  if f.marshalErr then .error .serializationError
  else .ok { id := entryId, aggregateType := "order", aggregateID := order.id,
             eventType := "order_created", payload := marshalOrder order,
             createdAt := entryNow }

/-- outbox_models.go NewOrderStatusUpdatedOutboxEntry: as above, tagged
`order_status_updated`. -/
def NewOrderStatusUpdatedOutboxEntry (f : Faults) (entryId : String) (entryNow : Nat)
    (order : Order) : Except SvcError OutboxModel :=
  if f.marshalErr then .error .serializationError
  else .ok { id := entryId, aggregateType := "order", aggregateID := order.id,
             eventType := "order_status_updated", payload := marshalOrder order,
             createdAt := entryNow }

/-- outbox_repository.go SaveOutboxEntryWithTx: insert one outbox row into
the transaction's view. -/
def SaveOutboxEntryWithTx (f : Faults) (tx : DBState) (entry : OutboxModel) :
    Except SvcError DBState :=
  if f.saveErr then .error .storageError
  else .ok { tx with outbox := tx.outbox ++ [entry] }

/-- db_order_service.go DBOrderService.CreateOrder: build the domain order
with status PENDING, begin a transaction, write the order, build and write
the ORDER_CREATED outbox entry, commit; roll back on every error. -/
def DBOrderService.CreateOrder (f : Faults) (g : Gen) (db : DBState)
    (customerID : String) (items : List OrderItem) : SvcResult :=
  let order : Order :=
    { id := "", customerID := customerID, items := items,
      status := OrderStatusPending, totalAmount := 0, createdAt := 0, updatedAt := 0 }
  if f.beginErr then ⟨.error .txError, db, none⟩
  else
    match CreateOrderWithTx f g.orderId g.now db order with
    | .error e => ⟨.error e, db, some .rolledBack⟩
    | .ok (tx1, createdOrder) =>
        match NewOrderCreatedOutboxEntry f g.entryId g.entryNow createdOrder with
        | .error e => ⟨.error e, db, some .rolledBack⟩
        | .ok entry =>
            match SaveOutboxEntryWithTx f tx1 entry with
            | .error e => ⟨.error e, db, some .rolledBack⟩
            | .ok tx2 =>
                if f.commitErr then ⟨.error .txError, db, some .aborted⟩
                else ⟨.ok createdOrder, tx2, some .committed⟩

/-- db_order_service.go DBOrderService.UpdateOrderStatus: begin a
transaction, update the status, build and write the ORDER_STATUS_UPDATED
outbox entry, commit; roll back on every error. -/
def DBOrderService.UpdateOrderStatus (f : Faults) (g : Gen) (db : DBState)
    (orderID : String) (status : OrderStatus) : SvcResult :=
  if f.beginErr then ⟨.error .txError, db, none⟩
  else
    match UpdateOrderStatusWithTx f g.now db orderID status with
    | .error e => ⟨.error e, db, some .rolledBack⟩
    | .ok (tx1, updatedOrder) =>
        match NewOrderStatusUpdatedOutboxEntry f g.entryId g.entryNow updatedOrder with
        | .error e => ⟨.error e, db, some .rolledBack⟩
        | .ok entry =>
            match SaveOutboxEntryWithTx f tx1 entry with
            | .error e => ⟨.error e, db, some .rolledBack⟩
            | .ok tx2 =>
                if f.commitErr then ⟨.error .txError, db, some .aborted⟩
                else ⟨.ok updatedOrder, tx2, some .committed⟩

/-- gRPC status codes the order handler reports. -/
inductive GrpcCode where
  | invalidArgument : GrpcCode
  | notFound : GrpcCode
  | internal : GrpcCode
deriving DecidableEq

/-- grpc_handler.go UpdateOrderStatus's switch over the wire status: the
five named proto values map to the matching domain status, everything else
(including ORDER_STATUS_UNSPECIFIED = 0) is rejected. -/
def protoStatusToDomain (s : Int) : Option OrderStatus :=
  if s = 1 then some OrderStatusPending
  else if s = 2 then some OrderStatusProcessing
  else if s = 3 then some OrderStatusShipped
  else if s = 4 then some OrderStatusDelivered
  else if s = 5 then some OrderStatusCancelled
  else none

/-- grpc_handler.go GRPCOrderServer.CreateOrder: reject an empty customer
id or an empty item list before touching the service, otherwise delegate
and map any service error to codes.Internal. -/
def GRPCOrderServer.CreateOrder (f : Faults) (g : Gen) (db : DBState)
    (customerID : String) (items : List OrderItem) :
    Except GrpcCode Order × DBState :=
  if customerID = "" then (.error .invalidArgument, db)
  else if items = [] then (.error .invalidArgument, db)
  else
    let r := DBOrderService.CreateOrder f g db customerID items
    match r.res with
    | .error _ => (.error .internal, r.db)
    | .ok o => (.ok o, r.db)

/-- grpc_handler.go GRPCOrderServer.UpdateOrderStatus: reject an empty
order id or an unknown wire status before touching the service, otherwise
delegate and map any service error to codes.Internal. -/
def GRPCOrderServer.UpdateOrderStatus (f : Faults) (g : Gen) (db : DBState)
    (orderID : String) (protoStatus : Int) :
    Except GrpcCode Order × DBState :=
  if orderID = "" then (.error .invalidArgument, db)
  else
    match protoStatusToDomain protoStatus with
    | none => (.error .invalidArgument, db)
    | some st =>
        let r := DBOrderService.UpdateOrderStatus f g db orderID st
        match r.res with
        | .error _ => (.error .internal, r.db)
        | .ok o => (.ok o, r.db)

/-- HTTP status codes the order HTTP handlers (part_009) report. -/
inductive HttpCode where
  | badRequest : HttpCode
  | internalServerError : HttpCode
deriving DecidableEq

/-- part_009 CreateOrderHandler.CreateOrder, wired in cmd/order/main.go:
bind the JSON body (customer id and items) and call the service directly —
no validation of either field. -/
def CreateOrderHandler.CreateOrder (f : Faults) (g : Gen) (db : DBState)
    (customerID : String) (items : List OrderItem) :
    Except HttpCode Order × DBState :=
  let r := DBOrderService.CreateOrder f g db customerID items
  match r.res with
  | .error _ => (.error .internalServerError, r.db)
  | .ok o => (.ok o, r.db)

/-- part_009 UpdateOrderStatusHandler.UpdateOrderStatus, wired in
cmd/order/main.go: require a non-empty order id from the URL, bind the
JSON `status` field into the bare-int domain.OrderStatus with no
validation at all, and pass it straight to the service. -/
def UpdateOrderStatusHandler.UpdateOrderStatus (f : Faults) (g : Gen) (db : DBState)
    (orderID : String) (status : OrderStatus) :
    Except HttpCode Order × DBState :=
  if orderID = "" then (.error .badRequest, db)
  else
    let r := DBOrderService.UpdateOrderStatus f g db orderID status
    match r.res with
    | .error _ => (.error .internalServerError, r.db)
    | .ok o => (.ok o, r.db)

/-- One client-visible write operation, through either wired surface of the
order binary — the gRPC handler or the HTTP (gin) handlers of part_009 —
with its fault and generation oracles.  The HTTP update step carries the
raw JSON-bound status, which the HTTP handler does not validate. -/
inductive ClientStep where
  | createOrder (f : Faults) (g : Gen) (customerID : String) (items : List OrderItem)
  | updateStatus (f : Faults) (g : Gen) (orderID : String) (protoStatus : Int)
  | httpCreateOrder (f : Faults) (g : Gen) (customerID : String) (items : List OrderItem)
  | httpUpdateStatus (f : Faults) (g : Gen) (orderID : String) (status : OrderStatus)

/-- The durable database state after one client step. -/
def stepDB (db : DBState) : ClientStep → DBState
  | .createOrder f g cid items => (GRPCOrderServer.CreateOrder f g db cid items).2
  | .updateStatus f g oid ps => (GRPCOrderServer.UpdateOrderStatus f g db oid ps).2
  | .httpCreateOrder f g cid items => (CreateOrderHandler.CreateOrder f g db cid items).2
  | .httpUpdateStatus f g oid st => (UpdateOrderStatusHandler.UpdateOrderStatus f g db oid st).2

/-- The durable database state after a sequence of client steps. -/
def runSteps (db : DBState) (steps : List ClientStep) : DBState :=
  steps.foldl stepDB db

/-- The initial, empty database. -/
def emptyDB : DBState := ⟨[], []⟩

/-- The `ORDER BY id` comparison: rows ordered by ascending id.  Ids are
compared as character sequences, which is Lean's own order on `String`
(`String.lt_iff_toList_lt`) and Go's byte-wise string order. -/
def idLe (a b : OrderModel) : Prop := a.id.data ≤ b.id.data

instance : DecidableRel idLe := fun a b => inferInstanceAs (Decidable (a.id.data ≤ b.id.data))

instance : IsTotal OrderModel idLe := ⟨fun a b => le_total a.id.data b.id.data⟩

instance : IsTrans OrderModel idLe := ⟨fun _ _ _ => le_trans⟩

/-- The relational engine's `ORDER BY id` over a result set. -/
def sortByID (l : List OrderModel) : List OrderModel := List.insertionSort idLe l

/-- The query ListOrders builds: rows of the customer, restricted by the
keyset predicate `id > pageToken` when a token is given. -/
def listQuery (db : DBState) (customerID : String) (pageToken : String) :
    List OrderModel :=
  let q0 := db.orders.filter (fun m => decide (m.customerID = customerID))
  if pageToken ≠ "" then q0.filter (fun m => decide (pageToken.data < m.id.data)) else q0

/-- gorm_repository.go ListOrders: filter by customer, apply the keyset
predicate `id > pageToken` when a token is given, sort by id, limit to
pageSize+1 rows when pageSize > 0; if more rows than pageSize came back,
emit the last fetched row's id as the token and drop that row.  `none`
models the panic of indexing `orderModels[-1]` (empty result with a
negative pageSize). -/
def GormOrderRepository.ListOrders (db : DBState) (customerID : String)
    (pageSize : Int) (pageToken : String) : Option (List Order × String) :=
  let sorted := sortByID (listQuery db customerID pageToken)
  let fetched := if 0 < pageSize then sorted.take (pageSize + 1).toNat else sorted
  if pageSize < (fetched.length : Int) then
    match fetched.getLast? with
    | some last => some ((fetched.dropLast).map OrderModel.toOrderDomain, last.id)
    | none => none
  else
    some (fetched.map OrderModel.toOrderDomain, "")

/-- The domain object DBOrderService.CreateOrder builds before the
transaction: status PENDING, everything server-assigned still blank. -/
def initOrder (customerID : String) (items : List OrderItem) : Order :=
  { id := "", customerID := customerID, items := items,
    status := OrderStatusPending, totalAmount := 0, createdAt := 0, updatedAt := 0 }

/-- The order a fault-free CreateOrder returns. -/
def createdOrderOf (g : Gen) (customerID : String) (items : List OrderItem) : Order :=
  prepareOrder g.orderId g.now (initOrder customerID items)

/-- The outbox row a fault-free CreateOrder writes. -/
def createdEntryOf (g : Gen) (customerID : String) (items : List OrderItem) : OutboxModel :=
  { id := g.entryId, aggregateType := "order",
    aggregateID := (createdOrderOf g customerID items).id,
    eventType := "order_created",
    payload := marshalOrder (createdOrderOf g customerID items),
    createdAt := g.entryNow }

theorem prepareOrder_initOrder (gid : String) (now : Nat) (customerID : String)
    (items : List OrderItem) :
    prepareOrder gid now (initOrder customerID items) =
      { id := gid, customerID := customerID, items := items,
        status := OrderStatusPending, totalAmount := itemsTotal items,
        createdAt := now, updatedAt := now } := by
  simp [prepareOrder, initOrder, itemsTotal, OrderStatusPending, OrderStatusUnspecified]

/-- A fault-free CreateOrder commits: it returns the prepared order and
appends exactly one order row and one ORDER_CREATED outbox row. -/
theorem createOrder_noFaults (g : Gen) (db : DBState) (customerID : String)
    (items : List OrderItem) :
    DBOrderService.CreateOrder noFaults g db customerID items =
      ⟨.ok (createdOrderOf g customerID items),
       ⟨db.orders ++ [FromOrderDomain (createdOrderOf g customerID items)],
        db.outbox ++ [createdEntryOf g customerID items]⟩,
       some TxStatus.committed⟩ := by
  simp [DBOrderService.CreateOrder, CreateOrderWithTx, NewOrderCreatedOutboxEntry,
        SaveOutboxEntryWithTx, noFaults, createdOrderOf, createdEntryOf, initOrder,
        toOrderDomain_FromOrderDomain]

theorem updRow_id (orderID : String) (status : OrderStatus) (now : Nat) (m : OrderModel) :
    (updRow orderID status now m).id = m.id := by
  unfold updRow; split <;> rfl

theorem updRow_frame (orderID : String) (status : OrderStatus) (now : Nat) (m : OrderModel) :
    (updRow orderID status now m).id = m.id ∧
    (updRow orderID status now m).customerID = m.customerID ∧
    (updRow orderID status now m).items = m.items ∧
    (updRow orderID status now m).totalAmount = m.totalAmount ∧
    (updRow orderID status now m).createdAt = m.createdAt := by
  unfold updRow; split <;> simp

theorem updRow_status_of_id (orderID : String) (status : OrderStatus) (now : Nat)
    (m : OrderModel) (h : m.id = orderID) :
    updRow orderID status now m = { m with status := status, updatedAt := now } := by
  simp [updRow, h]

/-- A member of the updated table whose id matches carries the new status. -/
theorem mem_map_updRow_status (l : List OrderModel) (orderID : String)
    (status : OrderStatus) (now : Nat) (x : OrderModel)
    (hx : x ∈ l.map (updRow orderID status now)) (hid : x.id = orderID) :
    x.status = status := by
  rcases List.mem_map.mp hx with ⟨y, _, rfl⟩
  by_cases h : y.id = orderID
  · simp [updRow, h]
  · rw [updRow_id] at hid; exact absurd hid h

theorem countP_map_updRow (l : List OrderModel) (orderID : String)
    (status : OrderStatus) (now : Nat) :
    (l.map (updRow orderID status now)).countP (fun m => decide (m.id = orderID)) =
      l.countP (fun m => decide (m.id = orderID)) := by
  rw [List.countP_map]
  refine List.countP_congr (fun m _ => ?_)
  simp [Function.comp, updRow_id]

/-- Every error return of the service CreateOrder leaves the durable state
unchanged and the transaction resolved; every success committed with the
prepared order appended and exactly one ORDER_CREATED outbox row. -/
theorem createOrder_shape (f : Faults) (g : Gen) (db : DBState)
    (customerID : String) (items : List OrderItem) :
    (∃ e tx, DBOrderService.CreateOrder f g db customerID items = ⟨.error e, db, tx⟩ ∧
       tx ≠ some TxStatus.active) ∨
    DBOrderService.CreateOrder f g db customerID items =
      ⟨.ok (createdOrderOf g customerID items),
       ⟨db.orders ++ [FromOrderDomain (createdOrderOf g customerID items)],
        db.outbox ++ [createdEntryOf g customerID items]⟩,
       some TxStatus.committed⟩ := by
  unfold DBOrderService.CreateOrder CreateOrderWithTx NewOrderCreatedOutboxEntry
    SaveOutboxEntryWithTx
  cases hb : f.beginErr with
  | true => exact .inl ⟨.txError, none, by simp, by simp⟩
  | false =>
    cases hw : f.writeErr with
    | true => exact .inl ⟨.storageError, some .rolledBack, by simp, by simp⟩
    | false =>
      cases hm : f.marshalErr with
      | true => exact .inl ⟨.serializationError, some .rolledBack, by simp, by simp⟩
      | false =>
        cases hs : f.saveErr with
        | true => exact .inl ⟨.storageError, some .rolledBack, by simp, by simp⟩
        | false =>
          cases hc : f.commitErr with
          | true => exact .inl ⟨.txError, some .aborted, by simp, by simp⟩
          | false =>
            refine .inr ?_
            simp [createdOrderOf, createdEntryOf, initOrder, toOrderDomain_FromOrderDomain]

/-- The outbox row a fault-free UpdateOrderStatus writes for the row `m` it
read back. -/
def updatedEntryOf (g : Gen) (m : OrderModel) : OutboxModel :=
  { id := g.entryId, aggregateType := "order", aggregateID := m.toOrderDomain.id,
    eventType := "order_status_updated", payload := marshalOrder m.toOrderDomain,
    createdAt := g.entryNow }

/-- Every error return of the service UpdateOrderStatus leaves the durable
state unchanged and the transaction resolved; every success committed with
the status update applied and exactly one ORDER_STATUS_UPDATED outbox row. -/
theorem updateOrderStatus_shape (f : Faults) (g : Gen) (db : DBState)
    (orderID : String) (status : OrderStatus) :
    (∃ e tx, DBOrderService.UpdateOrderStatus f g db orderID status = ⟨.error e, db, tx⟩ ∧
       tx ≠ some TxStatus.active) ∨
    (∃ m, (db.orders.map (updRow orderID status g.now)).find?
            (fun x => decide (x.id = orderID)) = some m ∧
       DBOrderService.UpdateOrderStatus f g db orderID status =
        ⟨.ok m.toOrderDomain,
         ⟨db.orders.map (updRow orderID status g.now), db.outbox ++ [updatedEntryOf g m]⟩,
         some TxStatus.committed⟩) := by
  simp only [DBOrderService.UpdateOrderStatus, UpdateOrderStatusWithTx,
    NewOrderStatusUpdatedOutboxEntry, SaveOutboxEntryWithTx]
  cases hb : f.beginErr with
  | true => exact .inl ⟨.txError, none, by simp, by simp⟩
  | false =>
  cases hw : f.writeErr with
  | true => exact .inl ⟨.storageError, some .rolledBack, by simp, by simp⟩
  | false =>
  cases hcnt : f.countErr with
  | true => exact .inl ⟨.storageError, some .rolledBack, by simp, by simp⟩
  | false =>
  by_cases hzero : (db.orders.map (updRow orderID status g.now)).countP
      (fun m => decide (m.id = orderID)) = 0
  · exact .inl ⟨.notFoundError, some .rolledBack, by rw [if_pos hzero]; simp, by simp⟩
  · cases hr : f.readErr with
    | true => exact .inl ⟨.storageError, some .rolledBack, by rw [if_neg hzero]; simp, by simp⟩
    | false =>
    cases hf : (db.orders.map (updRow orderID status g.now)).find?
        (fun x => decide (x.id = orderID)) with
    | none => exact .inl ⟨.storageError, some .rolledBack, by rw [if_neg hzero]; simp, by simp⟩
    | some m =>
      cases hm : f.marshalErr with
      | true =>
          exact .inl ⟨.serializationError, some .rolledBack, by rw [if_neg hzero]; simp, by simp⟩
      | false =>
      cases hs : f.saveErr with
      | true =>
          exact .inl ⟨.storageError, some .rolledBack, by rw [if_neg hzero]; simp, by simp⟩
      | false =>
      cases hc : f.commitErr with
      | true => exact .inl ⟨.txError, some .aborted, by rw [if_neg hzero]; simp, by simp⟩
      | false =>
        exact .inr ⟨m, rfl, by rw [if_neg hzero]; simp [updatedEntryOf]⟩

/-- Looking up the updated table by id finds the updated copy of the unique
row that carried that id. -/
theorem find?_map_updRow (l : List OrderModel) (orderID : String)
    (status : OrderStatus) (now : Nat) (m : OrderModel)
    (hm : m ∈ l) (hid : m.id = orderID) (hnd : (l.map (fun x => x.id)).Nodup) :
    (l.map (updRow orderID status now)).find? (fun x => decide (x.id = orderID)) =
      some (updRow orderID status now m) := by
  induction l with
  | nil => cases hm
  | cons a l ih =>
      rcases List.mem_cons.mp hm with rfl | hm'
      · simp [List.find?_cons, updRow_id, hid]
      · have hane : ¬a.id = orderID := by
          intro ha
          rw [List.map_cons, List.nodup_cons] at hnd
          apply hnd.1
          rw [ha, ← hid]
          exact List.mem_map_of_mem (fun x => x.id) hm'
        have hnd' : (l.map (fun x => x.id)).Nodup := by
          rw [List.map_cons, List.nodup_cons] at hnd; exact hnd.2
        rw [List.map_cons, List.find?_cons]
        simp only [updRow_id, hane, decide_False]
        exact ih hm' hnd'

/-- A fault-free UpdateOrderStatus on an id that is absent from the orders
table fails with the not-found error after rolling back. -/
theorem updateOrderStatus_notFound (g : Gen) (db : DBState) (orderID : String)
    (status : OrderStatus) (habs : ∀ m ∈ db.orders, m.id ≠ orderID) :
    DBOrderService.UpdateOrderStatus noFaults g db orderID status =
      ⟨.error .notFoundError, db, some TxStatus.rolledBack⟩ := by
  have hzero : (db.orders.map (updRow orderID status g.now)).countP
      (fun m => decide (m.id = orderID)) = 0 := by
    rw [countP_map_updRow, List.countP_eq_zero]
    intro a ha
    simpa using habs a ha
  simp only [DBOrderService.UpdateOrderStatus, UpdateOrderStatusWithTx, noFaults]
  rw [if_pos hzero]
  simp

/-- A fault-free UpdateOrderStatus on an id present in the orders table
updates that row, returns it, and appends one ORDER_STATUS_UPDATED row. -/
theorem updateOrderStatus_found (g : Gen) (db : DBState) (orderID : String)
    (status : OrderStatus) (m : OrderModel) (hm : m ∈ db.orders)
    (hid : m.id = orderID) (hnd : (db.orders.map (fun x => x.id)).Nodup) :
    DBOrderService.UpdateOrderStatus noFaults g db orderID status =
      ⟨.ok (updRow orderID status g.now m).toOrderDomain,
       ⟨db.orders.map (updRow orderID status g.now),
        db.outbox ++ [updatedEntryOf g (updRow orderID status g.now m)]⟩,
       some TxStatus.committed⟩ := by
  have hfind := find?_map_updRow db.orders orderID status g.now m hm hid hnd
  have hzero : ¬(db.orders.map (updRow orderID status g.now)).countP
      (fun m => decide (m.id = orderID)) = 0 := by
    rw [countP_map_updRow]
    intro h
    rw [List.countP_eq_zero] at h
    exact h m hm (by simpa using hid)
  simp only [DBOrderService.UpdateOrderStatus, UpdateOrderStatusWithTx,
    NewOrderStatusUpdatedOutboxEntry, SaveOutboxEntryWithTx, noFaults]
  rw [if_neg hzero]
  simp [hfind, updatedEntryOf]

/-- The handler's status switch only ever produces one of the five named
statuses; in particular never the UNSPECIFIED sentinel. -/
theorem protoStatusToDomain_ne_unspecified (s : Int) (st : OrderStatus)
    (h : protoStatusToDomain s = some st) : st ≠ OrderStatusUnspecified := by
  unfold protoStatusToDomain at h
  split at h
  · cases h; decide
  · split at h
    · cases h; decide
    · split at h
      · cases h; decide
      · split at h
        · cases h; decide
        · split at h
          · cases h; decide
          · cases h

/-- After a create request through the handler the orders table is either
unchanged or extended by one row whose status is PENDING. -/
theorem grpc_create_orders_cases (f : Faults) (g : Gen) (db : DBState)
    (customerID : String) (items : List OrderItem) :
    (GRPCOrderServer.CreateOrder f g db customerID items).2.orders = db.orders ∨
    ∃ mo, (GRPCOrderServer.CreateOrder f g db customerID items).2.orders =
        db.orders ++ [mo] ∧ mo.status = OrderStatusPending := by
  unfold GRPCOrderServer.CreateOrder
  by_cases h1 : customerID = ""
  · exact .inl (by simp [h1])
  · by_cases h2 : items = []
    · exact .inl (by simp [h1, h2])
    · rcases createOrder_shape f g db customerID items with ⟨e, tx, heq, -⟩ | heq
      · exact .inl (by simp [h1, h2, heq])
      · refine .inr ⟨FromOrderDomain (createdOrderOf g customerID items), ?_, ?_⟩
        · simp [h1, h2, heq]
        · simp [FromOrderDomain, createdOrderOf, prepareOrder_initOrder]

/-- After a status-update request through the handler the orders table is
either unchanged or mapped through `updRow` with a handler-vetted status. -/
theorem grpc_update_orders_cases (f : Faults) (g : Gen) (db : DBState)
    (orderID : String) (protoStatus : Int) :
    (GRPCOrderServer.UpdateOrderStatus f g db orderID protoStatus).2.orders = db.orders ∨
    ∃ st, protoStatusToDomain protoStatus = some st ∧
      (GRPCOrderServer.UpdateOrderStatus f g db orderID protoStatus).2.orders =
        db.orders.map (updRow orderID st g.now) := by
  unfold GRPCOrderServer.UpdateOrderStatus
  by_cases h1 : orderID = ""
  · exact .inl (by simp [h1])
  · cases hst : protoStatusToDomain protoStatus with
    | none => exact .inl (by simp [h1])
    | some st =>
        rcases updateOrderStatus_shape f g db orderID st with ⟨e, tx, heq, -⟩ | ⟨m, -, heq⟩
        · exact .inl (by simp [h1, heq])
        · exact .inr ⟨st, rfl, by simp [h1, heq]⟩

/-- After a create request through the HTTP handler the orders table is
either unchanged or extended by one row whose status is PENDING — the
service itself forces PENDING, so the missing HTTP validation is harmless
here. -/
theorem http_create_orders_cases (f : Faults) (g : Gen) (db : DBState)
    (customerID : String) (items : List OrderItem) :
    (CreateOrderHandler.CreateOrder f g db customerID items).2.orders = db.orders ∨
    ∃ mo, (CreateOrderHandler.CreateOrder f g db customerID items).2.orders =
        db.orders ++ [mo] ∧ mo.status = OrderStatusPending := by
  unfold CreateOrderHandler.CreateOrder
  rcases createOrder_shape f g db customerID items with ⟨e, tx, heq, -⟩ | heq
  · exact .inl (by simp [heq])
  · refine .inr ⟨FromOrderDomain (createdOrderOf g customerID items), ?_, ?_⟩
    · simp [heq]
    · simp [FromOrderDomain, createdOrderOf, prepareOrder_initOrder]

/-- After a status-update request through the HTTP handler the orders
table is either unchanged or mapped through `updRow` with the raw,
unvalidated request status. -/
theorem http_update_orders_cases (f : Faults) (g : Gen) (db : DBState)
    (orderID : String) (status : OrderStatus) :
    (UpdateOrderStatusHandler.UpdateOrderStatus f g db orderID status).2.orders =
      db.orders ∨
    (UpdateOrderStatusHandler.UpdateOrderStatus f g db orderID status).2.orders =
      db.orders.map (updRow orderID status g.now) := by
  unfold UpdateOrderStatusHandler.UpdateOrderStatus
  by_cases h1 : orderID = ""
  · exact .inl (by simp [h1])
  · rcases updateOrderStatus_shape f g db orderID status with ⟨e, tx, heq, -⟩ | ⟨m, -, heq⟩
    · exact .inl (by simp [h1, heq])
    · exact .inr (by simp [h1, heq])

/-- The side condition the HTTP surface fails to enforce: an HTTP
status-update request must not carry the UNSPECIFIED status.  Every other
step satisfies it vacuously (the gRPC handler vets its status itself). -/
def stepKeepsStatusSpecified : ClientStep → Prop
  | .httpUpdateStatus _ _ _ st => st ≠ OrderStatusUnspecified
  | _ => True

instance : DecidablePred stepKeepsStatusSpecified := fun s =>
  match s with
  | .httpUpdateStatus _ _ _ st =>
      inferInstanceAs (Decidable (st ≠ OrderStatusUnspecified))
  | .createOrder _ _ _ _ => .isTrue trivial
  | .updateStatus _ _ _ _ => .isTrue trivial
  | .httpCreateOrder _ _ _ _ => .isTrue trivial

/-- One client step preserves the absence of the UNSPECIFIED status from
the orders table, provided an HTTP status update never carries it. -/
theorem stepDB_status_invariant (db : DBState) (s : ClientStep)
    (hs : stepKeepsStatusSpecified s)
    (h : ∀ m ∈ db.orders, m.status ≠ OrderStatusUnspecified) :
    ∀ m ∈ (stepDB db s).orders, m.status ≠ OrderStatusUnspecified := by
  cases s with
  | createOrder f g cid items =>
      intro m hm
      rcases grpc_create_orders_cases f g db cid items with hc | ⟨mo, hc, hst⟩
      · exact h m (by rw [stepDB, hc] at hm; exact hm)
      · rw [stepDB, hc] at hm
        rcases List.mem_append.mp hm with hm' | hm'
        · exact h m hm'
        · rw [List.mem_singleton.mp hm', hst]; decide
  | updateStatus f g oid ps =>
      intro m hm
      rcases grpc_update_orders_cases f g db oid ps with hc | ⟨st, hst, hc⟩
      · exact h m (by rw [stepDB, hc] at hm; exact hm)
      · rw [stepDB, hc] at hm
        rcases List.mem_map.mp hm with ⟨y, hy, rfl⟩
        unfold updRow
        split
        · exact protoStatusToDomain_ne_unspecified ps st hst
        · exact h y hy
  | httpCreateOrder f g cid items =>
      intro m hm
      rcases http_create_orders_cases f g db cid items with hc | ⟨mo, hc, hst⟩
      · exact h m (by rw [stepDB, hc] at hm; exact hm)
      · rw [stepDB, hc] at hm
        rcases List.mem_append.mp hm with hm' | hm'
        · exact h m hm'
        · rw [List.mem_singleton.mp hm', hst]; decide
  | httpUpdateStatus f g oid st =>
      intro m hm
      rcases http_update_orders_cases f g db oid st with hc | hc
      · exact h m (by rw [stepDB, hc] at hm; exact hm)
      · rw [stepDB, hc] at hm
        rcases List.mem_map.mp hm with ⟨y, hy, rfl⟩
        unfold updRow
        split
        · exact hs
        · exact h y hy

/-- Running any sequence of client steps whose HTTP status updates all
carry a specified status preserves the invariant. -/
theorem runSteps_status_invariant (steps : List ClientStep) (db : DBState)
    (hs : ∀ s ∈ steps, stepKeepsStatusSpecified s)
    (h : ∀ m ∈ db.orders, m.status ≠ OrderStatusUnspecified) :
    ∀ m ∈ (runSteps db steps).orders, m.status ≠ OrderStatusUnspecified := by
  induction steps generalizing db with
  | nil => exact h
  | cons s steps ih =>
      exact ih (stepDB db s) (fun s' hs' => hs s' (List.mem_cons_of_mem s hs'))
        (stepDB_status_invariant db s (hs s (List.mem_cons_self s steps)) h)

/-- In a sorted result set every row's id is bounded by the last row's. -/
theorem sorted_idLe_le_getLast (l : List OrderModel) (hne : l ≠ [])
    (hs : List.Sorted idLe l) : ∀ a ∈ l, idLe a (l.getLast hne) := by
  induction l with
  | nil => exact absurd rfl hne
  | cons x l ih =>
      cases l with
      | nil =>
          intro a ha
          rw [List.mem_singleton.mp ha]
          exact le_refl _
      | cons y t =>
          rw [List.sorted_cons] at hs
          intro a ha
          rw [List.getLast_cons (List.cons_ne_nil y t)]
          rcases List.mem_cons.mp ha with rfl | ha'
          · exact hs.1 _ (List.getLast_mem (List.cons_ne_nil y t))
          · exact ih (List.cons_ne_nil y t) hs.2 a ha'

theorem mem_listQuery (db : DBState) (customerID : String) (pageToken : String)
    (m : OrderModel) (hm : m ∈ listQuery db customerID pageToken) :
    m ∈ db.orders ∧ m.customerID = customerID := by
  unfold listQuery at hm
  split at hm
  · have := List.mem_filter.mp hm
    have h0 := List.mem_filter.mp this.1
    exact ⟨h0.1, by simpa using h0.2⟩
  · have h0 := List.mem_filter.mp hm
    exact ⟨h0.1, by simpa using h0.2⟩

theorem listQuery_empty_token (db : DBState) (customerID : String) :
    listQuery db customerID "" =
      db.orders.filter (fun m => decide (m.customerID = customerID)) := by
  simp [listQuery]

/-- The sorted query result: a sorted permutation of the query rows. -/
theorem sortByID_sorted (l : List OrderModel) : List.Sorted idLe (sortByID l) :=
  List.sorted_insertionSort idLe l

theorem sortByID_perm (l : List OrderModel) : List.Perm (sortByID l) l :=
  List.perm_insertionSort idLe l

/-- C1: for every call to the order write service's CreateOrder or
UpdateOrderStatus, under every pattern of storage/encoding faults, an error
return leaves the durable state untouched and the transaction resolved
(rolled back, or aborted by the failing commit — never still open), while a
success return is committed with the order write and exactly one outbox
row with the matching aggregate id durable. -/
theorem c1_write_atomicity (f : Faults) (g : Gen) (db : DBState)
    (customerID : String) (items : List OrderItem)
    (orderID : String) (status : OrderStatus) :
    (∀ e, (DBOrderService.CreateOrder f g db customerID items).res = .error e →
       (DBOrderService.CreateOrder f g db customerID items).db = db ∧
       (DBOrderService.CreateOrder f g db customerID items).tx ≠ some TxStatus.active) ∧
    (∀ o, (DBOrderService.CreateOrder f g db customerID items).res = .ok o →
       (DBOrderService.CreateOrder f g db customerID items).tx = some TxStatus.committed ∧
       (DBOrderService.CreateOrder f g db customerID items).db.orders =
         db.orders ++ [FromOrderDomain o] ∧
       ∃ entry, (DBOrderService.CreateOrder f g db customerID items).db.outbox =
           db.outbox ++ [entry] ∧ entry.aggregateID = o.id) ∧
    (∀ e, (DBOrderService.UpdateOrderStatus f g db orderID status).res = .error e →
       (DBOrderService.UpdateOrderStatus f g db orderID status).db = db ∧
       (DBOrderService.UpdateOrderStatus f g db orderID status).tx ≠ some TxStatus.active) ∧
    (∀ o, (DBOrderService.UpdateOrderStatus f g db orderID status).res = .ok o →
       (DBOrderService.UpdateOrderStatus f g db orderID status).tx = some TxStatus.committed ∧
       (DBOrderService.UpdateOrderStatus f g db orderID status).db.orders =
         db.orders.map (updRow orderID status g.now) ∧
       ∃ entry, (DBOrderService.UpdateOrderStatus f g db orderID status).db.outbox =
           db.outbox ++ [entry] ∧ entry.aggregateID = orderID ∧ entry.aggregateID = o.id) := by
  refine ⟨?_, ?_, ?_, ?_⟩
  · intro e he
    rcases createOrder_shape f g db customerID items with ⟨e', tx, heq, htx⟩ | heq
    · rw [heq]; exact ⟨rfl, htx⟩
    · rw [heq] at he; cases he
  · intro o ho
    rcases createOrder_shape f g db customerID items with ⟨e', tx, heq, htx⟩ | heq
    · rw [heq] at ho; cases ho
    · rw [heq] at ho ⊢
      cases ho
      exact ⟨rfl, rfl, createdEntryOf g customerID items, rfl, rfl⟩
  · intro e he
    rcases updateOrderStatus_shape f g db orderID status with ⟨e', tx, heq, htx⟩ | ⟨m, hf, heq⟩
    · rw [heq]; exact ⟨rfl, htx⟩
    · rw [heq] at he; cases he
  · intro o ho
    rcases updateOrderStatus_shape f g db orderID status with ⟨e', tx, heq, htx⟩ | ⟨m, hf, heq⟩
    · rw [heq] at ho; cases ho
    · rw [heq] at ho ⊢
      cases ho
      have hmid : m.id = orderID := by simpa using List.find?_some hf
      refine ⟨rfl, rfl, updatedEntryOf g m, rfl, ?_, rfl⟩
      simpa [updatedEntryOf, OrderModel.toOrderDomain] using hmid

/-- Concrete generation oracle used by the witnesses. -/
def gen0 : Gen := ⟨"oid-1", "eid-1", 5, 6⟩

/-- Concrete order item used by the witnesses. -/
def item0 : OrderItem := ⟨"p1", 2, 1000⟩

/-- Concrete persisted order row used by the witnesses. -/
def row9 : OrderModel := ⟨"o9", "c1", 1, 2000, 1, 1, []⟩

/-- A database holding exactly the row `row9`. -/
def db9 : DBState := ⟨[row9], []⟩

/-- Witness for C1: a fault-free create on the empty database commits with
both rows; an update of an absent id errors with the state unchanged and
the transaction resolved; a fault-free update of a present id commits. -/
theorem c1_write_atomicity_witness :
    ((DBOrderService.CreateOrder noFaults gen0 emptyDB "c1" [item0]).tx =
        some TxStatus.committed ∧
      (DBOrderService.CreateOrder noFaults gen0 emptyDB "c1" [item0]).db.orders =
        emptyDB.orders ++ [FromOrderDomain (createdOrderOf gen0 "c1" [item0])] ∧
      ∃ entry, (DBOrderService.CreateOrder noFaults gen0 emptyDB "c1" [item0]).db.outbox =
          emptyDB.outbox ++ [entry] ∧
        entry.aggregateID = (createdOrderOf gen0 "c1" [item0]).id) ∧
    ((DBOrderService.UpdateOrderStatus noFaults gen0 emptyDB "o9" 2).db = emptyDB ∧
      (DBOrderService.UpdateOrderStatus noFaults gen0 emptyDB "o9" 2).tx ≠
        some TxStatus.active) ∧
    ((DBOrderService.UpdateOrderStatus noFaults gen0 db9 "o9" 2).tx =
        some TxStatus.committed ∧
      (DBOrderService.UpdateOrderStatus noFaults gen0 db9 "o9" 2).db.orders =
        db9.orders.map (updRow "o9" 2 gen0.now) ∧
      ∃ entry, (DBOrderService.UpdateOrderStatus noFaults gen0 db9 "o9" 2).db.outbox =
          db9.outbox ++ [entry] ∧ entry.aggregateID = "o9" ∧
        entry.aggregateID = ((updRow "o9" 2 gen0.now row9).toOrderDomain).id) :=
  ⟨(c1_write_atomicity noFaults gen0 emptyDB "c1" [item0] "o9" 2).2.1
      (createdOrderOf gen0 "c1" [item0]) rfl,
   (c1_write_atomicity noFaults gen0 emptyDB "c1" [item0] "o9" 2).2.2.1
      SvcError.notFoundError rfl,
   (c1_write_atomicity noFaults gen0 db9 "c1" [item0] "o9" 2).2.2.2
      ((updRow "o9" 2 gen0.now row9).toOrderDomain) rfl⟩

/-- Field accounting for prepareOrder: items and customer are untouched and
the total is computed exactly when the incoming total is zero. -/
theorem prepareOrder_fields (gid : String) (now : Nat) (order : Order) :
    (prepareOrder gid now order).items = order.items ∧
    (prepareOrder gid now order).customerID = order.customerID ∧
    (prepareOrder gid now order).totalAmount =
      (if order.totalAmount = 0 then itemsTotal order.items else order.totalAmount) := by
  unfold prepareOrder itemsTotal
  by_cases h1 : order.id = "" <;> by_cases h2 : order.totalAmount = 0 <;>
    simp [h1, h2] <;> split <;> simp [h2]

/-- C2: the order write service's CreateOrder (validation lives in the gRPC
handler in front of the service) rejects an empty customer id or an empty
item list with the validation error and touches neither table, under every
fault pattern; on non-empty inputs the fault-free path returns a new
PENDING order with the server-generated id, both timestamps, and the
computed total, appending exactly one order row and one outbox row. -/
theorem c2_create_validation (f : Faults) (g : Gen) (db : DBState)
    (customerID : String) (items : List OrderItem) :
    ((customerID = "" ∨ items = []) →
       GRPCOrderServer.CreateOrder f g db customerID items =
         (.error GrpcCode.invalidArgument, db)) ∧
    (customerID ≠ "" → items ≠ [] →
       (GRPCOrderServer.CreateOrder noFaults g db customerID items).1 =
         .ok (createdOrderOf g customerID items) ∧
       (GRPCOrderServer.CreateOrder noFaults g db customerID items).2.orders =
         db.orders ++ [FromOrderDomain (createdOrderOf g customerID items)] ∧
       (GRPCOrderServer.CreateOrder noFaults g db customerID items).2.outbox =
         db.outbox ++ [createdEntryOf g customerID items] ∧
       (createdOrderOf g customerID items).status = OrderStatusPending ∧
       (createdOrderOf g customerID items).id = g.orderId ∧
       (createdOrderOf g customerID items).customerID = customerID ∧
       (createdOrderOf g customerID items).items = items ∧
       (createdOrderOf g customerID items).createdAt = g.now ∧
       (createdOrderOf g customerID items).updatedAt = g.now ∧
       (createdOrderOf g customerID items).totalAmount = itemsTotal items) := by
  constructor
  · rintro (h | h)
    · simp [GRPCOrderServer.CreateOrder, h]
    · by_cases h1 : customerID = "" <;> simp [GRPCOrderServer.CreateOrder, h1, h]
  · intro h1 h2
    have hc := createOrder_noFaults g db customerID items
    refine ⟨?_, ?_, ?_, ?_, ?_, ?_, ?_, ?_, ?_, ?_⟩ <;>
      simp [GRPCOrderServer.CreateOrder, h1, h2, hc, createdOrderOf, prepareOrder_initOrder]

/-- Witness for C2: empty customer id and empty item list are rejected with
the database untouched, and the valid concrete call returns the PENDING
order with the computed total. -/
theorem c2_create_validation_witness :
    GRPCOrderServer.CreateOrder noFaults gen0 emptyDB "" [item0] =
      (.error GrpcCode.invalidArgument, emptyDB) ∧
    GRPCOrderServer.CreateOrder noFaults gen0 emptyDB "c1" [] =
      (.error GrpcCode.invalidArgument, emptyDB) ∧
    (GRPCOrderServer.CreateOrder noFaults gen0 emptyDB "c1" [item0]).1 =
      .ok (createdOrderOf gen0 "c1" [item0]) ∧
    (createdOrderOf gen0 "c1" [item0]).status = OrderStatusPending ∧
    (createdOrderOf gen0 "c1" [item0]).totalAmount = itemsTotal [item0] :=
  ⟨(c2_create_validation noFaults gen0 emptyDB "" [item0]).1 (.inl rfl),
   (c2_create_validation noFaults gen0 emptyDB "c1" []).1 (.inr rfl),
   ((c2_create_validation noFaults gen0 emptyDB "c1" [item0]).2 (by decide) (by decide)).1,
   ((c2_create_validation noFaults gen0 emptyDB "c1" [item0]).2 (by decide) (by decide)).2.2.2.1,
   ((c2_create_validation noFaults gen0 emptyDB "c1" [item0]).2 (by decide) (by decide)).2.2.2.2.2.2.2.2.2⟩

/-- C5: whenever the caller does not supply a total (totalAmount zero on
entry to prepareOrder, as in every service-path create), the created total
is the sum of price × quantity over the items; in particular the spec's
concrete call yields 3500. -/
theorem c5_total_computation :
    (∀ (gid : String) (now : Nat) (order : Order), order.totalAmount = 0 →
       (prepareOrder gid now order).totalAmount = itemsTotal order.items) ∧
    (∀ (g : Gen) (db : DBState),
       (DBOrderService.CreateOrder noFaults g db "c1"
          [⟨"p1", 2, 1000⟩, ⟨"p2", 1, 1500⟩]).res =
         .ok (createdOrderOf g "c1" [⟨"p1", 2, 1000⟩, ⟨"p2", 1, 1500⟩]) ∧
       (createdOrderOf g "c1" [⟨"p1", 2, 1000⟩, ⟨"p2", 1, 1500⟩]).totalAmount = 3500) := by
  constructor
  · intro gid now order h
    rw [(prepareOrder_fields gid now order).2.2, if_pos h]
  · intro g db
    refine ⟨by rw [createOrder_noFaults], ?_⟩
    rw [createdOrderOf, prepareOrder_initOrder]
    show itemsTotal [⟨"p1", 2, 1000⟩, ⟨"p2", 1, 1500⟩] = 3500
    decide

/-- Witness for C5: a concrete order carrying no total gets the item sum,
and the spec's concrete create yields 3500. -/
theorem c5_total_computation_witness :
    (prepareOrder "gid" 3 ⟨"", "cZ", [item0], 1, 0, 0, 0⟩).totalAmount =
      itemsTotal [item0] ∧
    (createdOrderOf gen0 "c1" [⟨"p1", 2, 1000⟩, ⟨"p2", 1, 1500⟩]).totalAmount = 3500 :=
  ⟨c5_total_computation.1 "gid" 3 ⟨"", "cZ", [item0], 1, 0, 0, 0⟩ rfl,
   (c5_total_computation.2 gen0 emptyDB).2⟩

/-- C6: a fault-free CreateOrder writes exactly one ORDER_CREATED outbox
row in the same transaction, and decoding its JSON payload returns exactly
the order handed back to the caller: same id, customer, items, PENDING
status, computed total. -/
theorem c6_snapshot_fidelity (g : Gen) (db : DBState) (customerID : String)
    (items : List OrderItem) :
    ∃ o entry,
      (DBOrderService.CreateOrder noFaults g db customerID items).res = .ok o ∧
      (DBOrderService.CreateOrder noFaults g db customerID items).db.outbox =
        db.outbox ++ [entry] ∧
      entry.eventType = "order_created" ∧ entry.aggregateType = "order" ∧
      entry.aggregateID = o.id ∧
      unmarshalOrder entry.payload = some o ∧
      o.status = OrderStatusPending ∧ o.customerID = customerID ∧
      o.items = items ∧ o.totalAmount = itemsTotal items := by
  refine ⟨createdOrderOf g customerID items, createdEntryOf g customerID items,
    ?_, ?_, rfl, rfl, rfl, ?_, ?_, ?_, ?_, ?_⟩
  · rw [createOrder_noFaults]
  · rw [createOrder_noFaults]
  · exact unmarshalOrder_marshalOrder _
  · rw [createdOrderOf, prepareOrder_initOrder]
  · rw [createdOrderOf, prepareOrder_initOrder]
  · rw [createdOrderOf, prepareOrder_initOrder]
  · rw [createdOrderOf, prepareOrder_initOrder]

/-- C10: CreateOrderWithTx persists the caller's total unchanged whenever
it is nonzero, and replaces it with the item sum exactly when it is zero —
so a zero total over items with a nonzero sum can never be persisted. -/
theorem c10_total_override (gid : String) (now : Nat) (tx : DBState) (order : Order) :
    CreateOrderWithTx noFaults gid now tx order =
      .ok ({ tx with orders := tx.orders ++ [FromOrderDomain (prepareOrder gid now order)] },
           prepareOrder gid now order) ∧
    (prepareOrder gid now order).totalAmount =
      (if order.totalAmount = 0 then itemsTotal order.items else order.totalAmount) ∧
    (order.totalAmount ≠ 0 →
       (prepareOrder gid now order).totalAmount = order.totalAmount) ∧
    (order.totalAmount = 0 →
       (prepareOrder gid now order).totalAmount = itemsTotal order.items) ∧
    (order.totalAmount = 0 → itemsTotal order.items ≠ 0 →
       (prepareOrder gid now order).totalAmount ≠ 0) := by
  refine ⟨?_, (prepareOrder_fields gid now order).2.2, ?_, ?_, ?_⟩
  · simp [CreateOrderWithTx, noFaults, toOrderDomain_FromOrderDomain]
  · intro h; rw [(prepareOrder_fields gid now order).2.2, if_neg h]
  · intro h; rw [(prepareOrder_fields gid now order).2.2, if_pos h]
  · intro h hs; rw [(prepareOrder_fields gid now order).2.2, if_pos h]; exact hs

/-- Witness for C10: a caller-supplied zero total over a 2000-sum item list
is replaced by 2000, hence not persistable as zero; a supplied 7 persists. -/
theorem c10_total_override_witness :
    (prepareOrder "gid" 3 ⟨"", "cZ", [item0], 1, 0, 0, 0⟩).totalAmount =
      itemsTotal [item0] ∧
    (prepareOrder "gid" 3 ⟨"", "cZ", [item0], 1, 0, 0, 0⟩).totalAmount ≠ 0 ∧
    (prepareOrder "gid" 3 ⟨"", "cZ", [item0], 1, 7, 0, 0⟩).totalAmount = 7 :=
  ⟨(c10_total_override "gid" 3 emptyDB ⟨"", "cZ", [item0], 1, 0, 0, 0⟩).2.2.2.1 rfl,
   (c10_total_override "gid" 3 emptyDB ⟨"", "cZ", [item0], 1, 0, 0, 0⟩).2.2.2.2 rfl (by decide),
   (c10_total_override "gid" 3 emptyDB ⟨"", "cZ", [item0], 1, 7, 0, 0⟩).2.2.1 (by decide)⟩

/-- C3: a fault-free UpdateOrderStatus on an absent id fails with the
not-found error (decided by the in-transaction row-count probe, which the
embedded UpdateOrderStatusWithTx runs after the no-op update statement)
and persists nothing; on a present id it succeeds, the row's status
becomes the requested one, and exactly one ORDER_STATUS_UPDATED outbox
row with aggregate id = orderID lands in the same transaction. -/
theorem c3_update_notfound_or_outbox (g : Gen) (db : DBState) (orderID : String)
    (status : OrderStatus) :
    ((∀ m ∈ db.orders, m.id ≠ orderID) →
       (DBOrderService.UpdateOrderStatus noFaults g db orderID status).res =
         .error SvcError.notFoundError ∧
       (DBOrderService.UpdateOrderStatus noFaults g db orderID status).db = db) ∧
    (∀ m, m ∈ db.orders → m.id = orderID →
       (db.orders.map (fun x => x.id)).Nodup →
       (DBOrderService.UpdateOrderStatus noFaults g db orderID status).res =
         .ok ((updRow orderID status g.now m).toOrderDomain) ∧
       ((updRow orderID status g.now m).toOrderDomain).status = status ∧
       (DBOrderService.UpdateOrderStatus noFaults g db orderID status).db.orders =
         db.orders.map (updRow orderID status g.now) ∧
       (DBOrderService.UpdateOrderStatus noFaults g db orderID status).db.outbox =
         db.outbox ++ [updatedEntryOf g (updRow orderID status g.now m)] ∧
       (updatedEntryOf g (updRow orderID status g.now m)).eventType =
         "order_status_updated" ∧
       (updatedEntryOf g (updRow orderID status g.now m)).aggregateID = orderID) := by
  constructor
  · intro habs
    rw [updateOrderStatus_notFound g db orderID status habs]
    exact ⟨rfl, rfl⟩
  · intro m hm hid hnd
    rw [updateOrderStatus_found g db orderID status m hm hid hnd]
    refine ⟨rfl, ?_, rfl, rfl, rfl, ?_⟩
    · rw [updRow_status_of_id _ _ _ _ hid]; rfl
    · simp [updatedEntryOf, OrderModel.toOrderDomain, updRow_id, hid]

/-- Witness for C3: updating the absent id on the empty database fails as
not-found without touching it; updating the present row succeeds with the
new status and the matching outbox row. -/
theorem c3_update_notfound_or_outbox_witness :
    ((DBOrderService.UpdateOrderStatus noFaults gen0 emptyDB "o9" 3).res =
        .error SvcError.notFoundError ∧
      (DBOrderService.UpdateOrderStatus noFaults gen0 emptyDB "o9" 3).db = emptyDB) ∧
    (DBOrderService.UpdateOrderStatus noFaults gen0 db9 "o9" 3).res =
      .ok ((updRow "o9" 3 gen0.now row9).toOrderDomain) ∧
    ((updRow "o9" 3 gen0.now row9).toOrderDomain).status = 3 ∧
    (DBOrderService.UpdateOrderStatus noFaults gen0 db9 "o9" 3).db.outbox =
      db9.outbox ++ [updatedEntryOf gen0 (updRow "o9" 3 gen0.now row9)] ∧
    (updatedEntryOf gen0 (updRow "o9" 3 gen0.now row9)).aggregateID = "o9" := by
  have habs := (c3_update_notfound_or_outbox gen0 emptyDB "o9" 3).1 (by decide)
  have hfound := (c3_update_notfound_or_outbox gen0 db9 "o9" 3).2 row9
    (by decide) rfl (by decide)
  exact ⟨habs, hfound.1, hfound.2.1, hfound.2.2.2.1, hfound.2.2.2.2.2⟩

/-- C7: a fault-free successful UpdateOrderStatus changes only the status
and updated-at of its row: id, customer, items, total and created-at of the
returned order coincide with the stored row, every other row is mapped
through the id-preserving `updRow`, and the only other write operation,
CreateOrder, appends a new row without touching existing ones — so items
are never modified after creation. -/
theorem c7_update_frame (g : Gen) (db : DBState) (orderID : String)
    (status : OrderStatus) (m : OrderModel) (hm : m ∈ db.orders)
    (hid : m.id = orderID) (hnd : (db.orders.map (fun x => x.id)).Nodup) :
    (DBOrderService.UpdateOrderStatus noFaults g db orderID status).res =
      .ok ((updRow orderID status g.now m).toOrderDomain) ∧
    ((updRow orderID status g.now m).toOrderDomain).id = m.id ∧
    ((updRow orderID status g.now m).toOrderDomain).customerID = m.customerID ∧
    ((updRow orderID status g.now m).toOrderDomain).items = m.toOrderDomain.items ∧
    ((updRow orderID status g.now m).toOrderDomain).totalAmount = m.totalAmount ∧
    ((updRow orderID status g.now m).toOrderDomain).createdAt = m.createdAt ∧
    ((updRow orderID status g.now m).toOrderDomain).status = status ∧
    ((updRow orderID status g.now m).toOrderDomain).updatedAt = g.now ∧
    (DBOrderService.UpdateOrderStatus noFaults g db orderID status).db.orders =
      db.orders.map (updRow orderID status g.now) ∧
    (∀ m' ∈ db.orders,
       (updRow orderID status g.now m').id = m'.id ∧
       (updRow orderID status g.now m').customerID = m'.customerID ∧
       (updRow orderID status g.now m').items = m'.items ∧
       (updRow orderID status g.now m').totalAmount = m'.totalAmount ∧
       (updRow orderID status g.now m').createdAt = m'.createdAt) ∧
    (∀ (f' : Faults) (g' : Gen) (db' : DBState) (cid : String)
       (its : List OrderItem) (o : Order),
       (DBOrderService.CreateOrder f' g' db' cid its).res = .ok o →
       (DBOrderService.CreateOrder f' g' db' cid its).db.orders =
         db'.orders ++ [FromOrderDomain o]) := by
  rw [updateOrderStatus_found g db orderID status m hm hid hnd,
    updRow_status_of_id _ _ _ _ hid]
  refine ⟨rfl, rfl, rfl, rfl, rfl, rfl, rfl, rfl, rfl,
    fun m' _ => updRow_frame orderID status g.now m', ?_⟩
  intro f' g' db' cid its o ho
  rcases createOrder_shape f' g' db' cid its with ⟨e', tx, heq, -⟩ | heq
  · rw [heq] at ho; cases ho
  · rw [heq] at ho ⊢; cases ho; rfl

/-- Witness for C7: updating the concrete row changes only its status and
updated-at, and the concrete create appends without touching prior rows. -/
theorem c7_update_frame_witness :
    (DBOrderService.UpdateOrderStatus noFaults gen0 db9 "o9" 4).res =
      .ok ((updRow "o9" 4 gen0.now row9).toOrderDomain) ∧
    ((updRow "o9" 4 gen0.now row9).toOrderDomain).items = row9.toOrderDomain.items ∧
    ((updRow "o9" 4 gen0.now row9).toOrderDomain).totalAmount = row9.totalAmount ∧
    ((updRow "o9" 4 gen0.now row9).toOrderDomain).status = 4 ∧
    (DBOrderService.CreateOrder noFaults gen0 emptyDB "c1" [item0]).db.orders =
      emptyDB.orders ++ [FromOrderDomain (createdOrderOf gen0 "c1" [item0])] := by
  have h := c7_update_frame gen0 db9 "o9" 4 row9 (by decide) rfl (by decide)
  exact ⟨h.1, h.2.2.2.1, h.2.2.2.2.1, h.2.2.2.2.2.2.1,
    h.2.2.2.2.2.2.2.2.2.2 noFaults gen0 emptyDB "c1" [item0]
      (createdOrderOf gen0 "c1" [item0]) rfl⟩

/-- prepareOrder's status defaulting: UNSPECIFIED becomes PENDING before
the write, any other status passes through. -/
theorem prepareOrder_status (gid : String) (now : Nat) (order : Order) :
    (prepareOrder gid now order).status =
      (if order.status = OrderStatusUnspecified then OrderStatusPending
       else order.status) := by
  unfold prepareOrder
  by_cases h1 : order.id = "" <;> by_cases h2 : order.totalAmount = 0 <;>
    simp [h1, h2] <;> split <;> simp_all

/-- C8, refuted as stated: the HTTP PATCH handler of part_009 (wired in
cmd/order/main.go against the same service and store) forwards the
JSON-bound status without any validation, so updating the order created by
a concrete gRPC create with status 0 durably persists an order row whose
status is UNSPECIFIED — a reachable persisted state violating the
invariant. -/
theorem c8_unspecified_reachable :
    updRow "oid-1" OrderStatusUnspecified gen0.now
        (FromOrderDomain (createdOrderOf gen0 "c1" [item0])) ∈
      (runSteps emptyDB
        [ClientStep.createOrder noFaults gen0 "c1" [item0],
         ClientStep.httpUpdateStatus noFaults gen0 "oid-1" OrderStatusUnspecified]).orders ∧
    (updRow "oid-1" OrderStatusUnspecified gen0.now
        (FromOrderDomain (createdOrderOf gen0 "c1" [item0]))).status =
      OrderStatusUnspecified :=
  ⟨by decide, by decide⟩

/-- C8 (amended): prepareOrder replaces an UNSPECIFIED status with PENDING
before writing, and in every database state reachable from the empty store
via the wired write surfaces (gRPC and HTTP), under every fault pattern,
no order row carries the UNSPECIFIED status — provided no HTTP
status-update request carries UNSPECIFIED, the one case the unvalidated
HTTP handler lets through. -/
theorem c8_no_unspecified_status :
    (∀ (gid : String) (now : Nat) (order : Order),
       order.status = OrderStatusUnspecified →
       (prepareOrder gid now order).status = OrderStatusPending) ∧
    (∀ (steps : List ClientStep) (m : OrderModel),
       (∀ s ∈ steps, stepKeepsStatusSpecified s) →
       m ∈ (runSteps emptyDB steps).orders → m.status ≠ OrderStatusUnspecified) :=
  ⟨fun gid now order h => by rw [prepareOrder_status, if_pos h],
   fun steps m hs hm =>
     runSteps_status_invariant steps emptyDB hs
       (fun _ h => absurd h (List.not_mem_nil _)) m hm⟩

/-- Witness for the amended C8: an UNSPECIFIED-status order is prepared as
PENDING, and the row created by a concrete gRPC create step and then
updated through the HTTP handler with a specified status is reachable and
does not carry the UNSPECIFIED status. -/
theorem c8_no_unspecified_status_witness :
    (prepareOrder "gid" 3 ⟨"", "cZ", [item0], OrderStatusUnspecified, 0, 0, 0⟩).status =
      OrderStatusPending ∧
    updRow "oid-1" 2 gen0.now (FromOrderDomain (createdOrderOf gen0 "c1" [item0])) ∈
      (runSteps emptyDB
        [ClientStep.createOrder noFaults gen0 "c1" [item0],
         ClientStep.httpUpdateStatus noFaults gen0 "oid-1" 2]).orders ∧
    (updRow "oid-1" 2 gen0.now
        (FromOrderDomain (createdOrderOf gen0 "c1" [item0]))).status ≠
      OrderStatusUnspecified :=
  ⟨c8_no_unspecified_status.1 "gid" 3 ⟨"", "cZ", [item0], OrderStatusUnspecified, 0, 0, 0⟩ rfl,
   by decide,
   c8_no_unspecified_status.2
     [ClientStep.createOrder noFaults gen0 "c1" [item0],
      ClientStep.httpUpdateStatus noFaults gen0 "oid-1" 2] _ (by decide) (by decide)⟩

/-- A minimal order row of customer c1, for the pagination counterexample. -/
def cexRow (i : String) : OrderModel := ⟨i, "c1", 1, 0, 0, 0, []⟩

/-- Three orders a, b, c of the same customer. -/
def cexDB : DBState := ⟨[cexRow "a", cexRow "b", cexRow "c"], []⟩

/-- C4 (code defect): with orders a, b, c and pageSize 1, ListOrders
returns page ["a"] with token "b" — the id of the dropped (N+1)-th probe
row itself, not of the last returned row "a" — so the follow-up call
`id > "b"` returns ["c"] and terminates: order "b" appears on no page,
a gap in the page sequence. -/
theorem c4_pagination_gap :
    GormOrderRepository.ListOrders cexDB "c1" 1 "" =
      some ([(cexRow "a").toOrderDomain], "b") ∧
    GormOrderRepository.ListOrders cexDB "c1" 1 "b" =
      some ([(cexRow "c").toOrderDomain], "") ∧
    (cexRow "b").toOrderDomain ∉
      ([(cexRow "a").toOrderDomain] ++ [(cexRow "c").toOrderDomain]) :=
  ⟨by decide, by decide, by decide⟩

/-- With a nonpositive pageSize and a nonempty result set, ListOrders
applies no row limit, drops the last sorted row and emits its id. -/
theorem listOrders_nonpos_eq (db : DBState) (cid : String) (ps : Int) (t : String)
    (hps : ps ≤ 0) (hne : sortByID (listQuery db cid t) ≠ []) :
    GormOrderRepository.ListOrders db cid ps t =
      some (((sortByID (listQuery db cid t)).dropLast).map OrderModel.toOrderDomain,
            ((sortByID (listQuery db cid t)).getLast hne).id) := by
  simp only [GormOrderRepository.ListOrders]
  rw [if_neg (not_lt.mpr hps)]
  have hlen : 0 < (sortByID (listQuery db cid t)).length := List.length_pos.mpr hne
  rw [if_pos (lt_of_le_of_lt hps (by exact_mod_cast hlen)),
    List.getLast?_eq_getLast _ hne]

/-- With a nonpositive pageSize and an empty (nonnegative-size) result set,
ListOrders returns the empty page and no token. -/
theorem listOrders_zero_nil (db : DBState) (cid : String) (t : String)
    (hnil : sortByID (listQuery db cid t) = []) :
    GormOrderRepository.ListOrders db cid 0 t = some ([], "") := by
  simp only [GormOrderRepository.ListOrders, hnil]
  simp

theorem string_data_inj {a b : String} (h : a.data = b.data) : a = b :=
  congrArg String.mk h

theorem listQuery_nodup (db : DBState) (cid : String) (t : String)
    (h : db.orders.Nodup) : (listQuery db cid t).Nodup := by
  unfold listQuery
  split
  · exact (h.filter _).filter _
  · exact h.filter _

/-- C9: with pageSize 0 (or negative) ListOrders applies no row limit, yet
the over-fetch test `length > pageSize` still fires on any nonempty result:
the matching row with the greatest id is dropped from the page and its id
emitted as the token — so that row appears on no page for any token. -/
theorem c9_nonpos_pagesize_drops_max (db : DBState) (cid : String) (ps : Int)
    (gm : OrderModel) (hps : ps ≤ 0)
    (hnd : (db.orders.map (fun x => x.id)).Nodup)
    (hgm : gm ∈ db.orders.filter (fun m => decide (m.customerID = cid)))
    (hmax : ∀ m ∈ db.orders.filter (fun m => decide (m.customerID = cid)),
        m.id.data ≤ gm.id.data) :
    (∀ t page tok, GormOrderRepository.ListOrders db cid ps t = some (page, tok) →
       ∀ o ∈ page, o.id ≠ gm.id) ∧
    GormOrderRepository.ListOrders db cid ps "" =
      some (((sortByID (listQuery db cid "")).dropLast).map OrderModel.toOrderDomain,
            gm.id) ∧
    (((sortByID (listQuery db cid "")).dropLast).map OrderModel.toOrderDomain).length + 1 =
      (db.orders.filter (fun m => decide (m.customerID = cid))).length := by
  have hnodup0 : db.orders.Nodup := hnd.of_map
  have hinj := List.inj_on_of_nodup_map hnd
  have key : ∀ t, ∀ x ∈ sortByID (listQuery db cid t), x ∈ db.orders ∧ x.customerID = cid :=
    fun t x hx => mem_listQuery db cid t x ((sortByID_perm _).mem_iff.mp hx)
  have hq0 : ∀ x, x ∈ db.orders → x.customerID = cid →
      x ∈ db.orders.filter (fun m => decide (m.customerID = cid)) :=
    fun x h1 h2 => List.mem_filter.mpr ⟨h1, by simpa using h2⟩
  have main : ∀ t (hne : sortByID (listQuery db cid t) ≠ []),
      gm ∈ sortByID (listQuery db cid t) →
      (sortByID (listQuery db cid t)).getLast hne = gm := by
    intro t hne hgs
    have hlast := List.getLast_mem hne
    have h1 := key t _ hlast
    have hle1 : ((sortByID (listQuery db cid t)).getLast hne).id.data ≤ gm.id.data :=
      hmax _ (hq0 _ h1.1 h1.2)
    have hle2 : gm.id.data ≤ ((sortByID (listQuery db cid t)).getLast hne).id.data :=
      sorted_idLe_le_getLast _ hne (sortByID_sorted _) gm hgs
    exact hinj h1.1 (List.mem_filter.mp hgm).1
      (string_data_inj (le_antisymm hle1 hle2))
  refine ⟨?_, ?_, ?_⟩
  · intro t page tok h o ho hoid
    by_cases hne : sortByID (listQuery db cid t) = []
    · simp only [GormOrderRepository.ListOrders, hne, List.take_nil, List.length_nil,
        List.getLast?_nil, List.map_nil, if_neg (not_lt.mpr hps), ite_self] at h
      split at h
      · cases h
      · have hp := Prod.ext_iff.mp (Option.some.inj h)
        have hpg : ([] : List Order) = page := hp.1
        rw [← hpg] at ho
        exact absurd ho (List.not_mem_nil o)
    · rw [listOrders_nonpos_eq db cid ps t hps hne] at h
      have hpair := Prod.ext_iff.mp (Option.some.inj h)
      have hpage : page = ((sortByID (listQuery db cid t)).dropLast).map
          OrderModel.toOrderDomain := hpair.1.symm
      rw [hpage] at ho
      rcases List.mem_map.mp ho with ⟨m', hm', rfl⟩
      have hmid : m'.id = gm.id := hoid
      have hm'sorted : m' ∈ sortByID (listQuery db cid t) :=
        (List.dropLast_sublist _).subset hm'
      have hmg : m' = gm := hinj (key t _ hm'sorted).1 (List.mem_filter.mp hgm).1 hmid
      subst hmg
      have hlastgm := main t hne hm'sorted
      have hnodupS : (sortByID (listQuery db cid t)).Nodup :=
        ((sortByID_perm _).nodup_iff).mpr (listQuery_nodup db cid t hnodup0)
      rw [← List.dropLast_append_getLast hne, List.nodup_append] at hnodupS
      exact hnodupS.2.2 hm' (by rw [hlastgm]; exact List.mem_singleton_self m')
  · have hne : sortByID (listQuery db cid "") ≠ [] := by
      intro hnil
      have hq : listQuery db cid "" = [] :=
        (hnil ▸ sortByID_perm (listQuery db cid "")).symm.eq_nil
      rw [listQuery_empty_token] at hq
      rw [hq] at hgm
      exact absurd hgm (List.not_mem_nil gm)
    have hgms : gm ∈ sortByID (listQuery db cid "") := by
      rw [(sortByID_perm _).mem_iff, listQuery_empty_token]; exact hgm
    rw [listOrders_nonpos_eq db cid ps "" hps hne, main "" hne hgms]
  · have hne : sortByID (listQuery db cid "") ≠ [] := by
      intro hnil
      have hq : listQuery db cid "" = [] :=
        (hnil ▸ sortByID_perm (listQuery db cid "")).symm.eq_nil
      rw [listQuery_empty_token] at hq
      rw [hq] at hgm
      exact absurd hgm (List.not_mem_nil gm)
    have hlen : 0 < (sortByID (listQuery db cid "")).length := List.length_pos.mpr hne
    rw [List.length_map, List.length_dropLast, Nat.sub_add_cancel hlen,
      (sortByID_perm _).length_eq, listQuery_empty_token]

/-- A minimal order row of customer c9, for the C9 witness. -/
def rowL (i : String) : OrderModel := ⟨i, "c9", 1, 0, 0, 0, []⟩

/-- Two orders a, b of customer c9. -/
def dbL : DBState := ⟨[rowL "a", rowL "b"], []⟩

/-- Witness for C9: listing customer c9 with pageSize 0 drops the greatest
row "b", emits "b" as the token, fetches the whole result set, and the
returned page's row "a" is not "b". -/
theorem c9_nonpos_pagesize_drops_max_witness :
    GormOrderRepository.ListOrders dbL "c9" 0 "" =
      some (((sortByID (listQuery dbL "c9" "")).dropLast).map OrderModel.toOrderDomain,
            (rowL "b").id) ∧
    (((sortByID (listQuery dbL "c9" "")).dropLast).map OrderModel.toOrderDomain).length + 1 =
      (dbL.orders.filter (fun m => decide (m.customerID = "c9"))).length ∧
    ((rowL "a").toOrderDomain).id ≠ (rowL "b").id := by
  have h := c9_nonpos_pagesize_drops_max dbL "c9" 0 (rowL "b") (by decide) (by decide)
    (by decide) (by decide)
  refine ⟨h.2.1, h.2.2, ?_⟩
  exact h.1 "" (((sortByID (listQuery dbL "c9" "")).dropLast).map OrderModel.toOrderDomain)
    (rowL "b").id h.2.1 ((rowL "a").toOrderDomain) (by decide)

end Bootiful
